import Mathlib

/-!
# Verification of the HTTP server core (`src/app/server.go`)

Shallow embedding of the request parser (`parseRequest`), the response
serializer (`Response.String`), the router in `handleConnection`, and the
connection handler's error path.  The byte stream of a connection is
modelled as a `List Char`, one `Char` per byte (all inputs of interest are
ASCII, and Go's `len` on the strings involved counts bytes, which the model
counts as characters).  Go runtime panics (index out of range, `make` with
a negative length) are modelled by explicit `panicked` outcomes, and
`os.Exit(1)` by an explicit `exitProcess` outcome.
-/

namespace HttpServer

/-- `bufio.Reader.ReadString('\n')`: the line read (delimiter included when
found), the unread remainder of the stream, and whether the delimiter was
missing (in which case Go reports an `io.EOF` error and the whole stream
was consumed into `line`). -/
structure ReadLineResult where
  line : List Char
  rest : List Char
  eof  : Bool
deriving Repr, DecidableEq

def readLine : List Char → ReadLineResult
  | [] => ⟨[], [], true⟩
  | c :: rest =>
    if c = '\n' then ⟨[c], rest, false⟩
    else
      let r := readLine rest
      ⟨c :: r.line, r.rest, r.eof⟩

/-- `strings.Split(s, sep)` for a one-character separator, as used on the
request line with `" "`. -/
def goSplitChar (sep : Char) : List Char → List (List Char)
  | [] => [[]]
  | c :: rest =>
    match goSplitChar sep rest with
    | [] => [[]]
    | h :: t => if c = sep then [] :: h :: t else (c :: h) :: t

/-- `strings.SplitN(s, sep, 2)`: `some (before, after)` around the first
occurrence of `sep`, `none` when `sep` does not occur (in which case Go's
`SplitN` returns a one-element slice and any access to index 1 panics). -/
def splitOnce (sep : List Char) : List Char → Option (List Char × List Char)
  | [] => if sep.isPrefixOf ([] : List Char) then some ([], []) else none
  | c :: rest =>
    if sep.isPrefixOf (c :: rest) then some ([], (c :: rest).drop sep.length)
    else
      match splitOnce sep rest with
      | some (pre, post) => some (c :: pre, post)
      | none => none

/-- The whitespace class trimmed by `strings.TrimSpace` (ASCII fragment of
`unicode.IsSpace`; all bytes handled by this server are ASCII). -/
def isSpaceChar (c : Char) : Bool :=
  c = ' ' || c = '\t' || c = '\n' || c = '\r' || c = '\x0B' || c = '\x0C'

/-- `strings.TrimSpace`. -/
def trimSpace (s : List Char) : List Char :=
  ((s.dropWhile isSpaceChar).reverse.dropWhile isSpaceChar).reverse

/-- Go map assignment `m[k] = v`: replaces the existing entry for `k` or
appends a new one.  Go maps have unspecified iteration order; the
association list keeps one fixed representative order. -/
def mapSet (k v : String) : List (String × String) → List (String × String)
  | [] => [(k, v)]
  | (k', v') :: rest => if k' = k then (k, v) :: rest else (k', v') :: mapSet k v rest

/-- The digits of a decimal numeral; `none` when empty or not all digits
(`strconv`'s syntax check). -/
def digitsToNat (l : List Char) : Option Nat :=
  if l = [] then none
  else if l.all (fun c => '0' ≤ c && c ≤ '9') then
    some (l.foldl (fun acc c => acc * 10 + (c.toNat - '0'.toNat)) 0)
  else none

/-- The value `strconv.Atoi(s)` returns when its error is ignored, as in
`contentLen, _ := strconv.Atoi(contentLenStr)`: 0 on a syntax error,
the parsed value when in 64-bit range, and the clamped bound that
`strconv.ParseInt` reports alongside a range error on overflow. -/
def goAtoi (s : List Char) : Int :=
  let signed : Bool × List Char :=
    match s with
    | '-' :: rest => (true, rest)
    | '+' :: rest => (false, rest)
    | _ => (false, s)
  match digitsToNat signed.2 with
  | none => 0
  | some n =>
      let v : Int := if signed.1 then -(n : Int) else (n : Int)
      if v > (2 ^ 63 - 1 : Int) then 2 ^ 63 - 1
      else if v < -(2 ^ 63 : Int) then -(2 ^ 63)
      else v

/-- `Request` (src/app/server.go). -/
structure Request where
  Method  : String
  Path    : String
  Headers : List (String × String)
  Body    : String
deriving Repr, DecidableEq

/-- `Response` (src/app/server.go).  `StatusCode` is a Go `int`; every
status the program assigns is a non-negative literal, so `Nat` is used. -/
structure Response where
  StatusCode : Nat
  Headers    : List (String × String)
  Body       : String
deriving Repr, DecidableEq

/-- `statusCodeToString` (src/app/server.go). -/
def statusCodeToString : List (Nat × String) :=
  [(200, "OK"), (201, "Created"), (404, "Not Found"),
   (405, "Method Not Allowed"), (500, "Internal Server Error")]

/-- The header-defaulting steps of `Response.String`: set `Content-Type`
to `text/plain` when absent, then set `Content-Length` to the body length
when absent. -/
def finalizeHeaders (hdrs : List (String × String)) (bodyLen : Nat) :
    List (String × String) :=
  let h1 := if (hdrs.lookup "Content-Type").isSome then hdrs
            else mapSet "Content-Type" "text/plain" hdrs
  if (h1.lookup "Content-Length").isSome then h1
  else mapSet "Content-Length" (toString bodyLen) h1

/-- The header block: each entry printed as `Name: Value\r\n`. -/
def headerBlock (hdrs : List (String × String)) : String :=
  hdrs.foldl (fun acc kv => acc ++ kv.1 ++ ": " ++ kv.2 ++ "\r\n") ""

/-- `func (r Response) String() string` (src/app/server.go): status line,
headers (a `nil` header map and an empty one behave alike), blank line,
body. -/
def Response.string (r : Response) : String :=
  let statusText :=
    match statusCodeToString.lookup r.StatusCode with
    | some t => t
    | none => "Unknown"
  let hdrs := finalizeHeaders r.Headers r.Body.length
  "HTTP/1.1 " ++ toString r.StatusCode ++ " " ++ statusText ++ "\r\n" ++
    headerBlock hdrs ++ "\r\n" ++ r.Body

/-- Outcome of the header loop in `parseRequest`. -/
inductive HeaderOutcome where
  | done (hdrs : List (String × String)) (rest : List Char)
  | eofReturn (hdrs : List (String × String))
  | panicked
deriving Repr, DecidableEq

/-- The header loop of `parseRequest`, with explicit fuel so that the
definition stays structurally computable: read lines until `"\r\n"`,
return early on EOF, split each line on the first `:` (a line without a
colon makes `headerParts[1]` panic), and store the trimmed value.  Each
iteration consumes at least one character of the stream, so any fuel
exceeding the stream length is never exhausted (`parseHeadersFuel_eq`);
the fuel-zero value is dead code. -/
def parseHeadersFuel : Nat → List Char → List (String × String) → HeaderOutcome
  | 0, _, _ => HeaderOutcome.panicked
  | fuel + 1, stream, hdrs =>
    if (readLine stream).line = ['\r', '\n'] then
      HeaderOutcome.done hdrs (readLine stream).rest
    else if (readLine stream).eof then
      HeaderOutcome.eofReturn hdrs
    else
      match splitOnce [':'] (readLine stream).line with
      | none => HeaderOutcome.panicked
      | some (name, value) =>
          parseHeadersFuel fuel (readLine stream).rest
            (mapSet name.asString (trimSpace value).asString hdrs)

/-- The header loop of `parseRequest`, run with enough fuel for its
stream. -/
def parseHeaders (stream : List Char) (hdrs : List (String × String)) :
    HeaderOutcome :=
  parseHeadersFuel (stream.length + 1) stream hdrs

/-- Outcome of `parseRequest`: a parsed request together with the unread
remainder of the stream, a returned Go error (carrying the error's
message), or a runtime panic. -/
inductive ParseOutcome where
  | ok (req : Request) (rest : List Char)
  | error (msg : String)
  | panicked
deriving Repr, DecidableEq

/-- `func parseRequest(reader *bufio.Reader) (Request, error)`
(src/app/server.go).  Panics are modelled explicitly: `parts[1]` on a
request line with fewer than two space-separated tokens, `headerParts[1]`
on a colon-less header line (inside `parseHeaders`), and
`make([]byte, contentLen)` with a negative length. -/
def parseRequest (stream : List Char) : ParseOutcome :=
  let r := readLine stream
  if r.eof then ParseOutcome.error "malformed HTTP request"
  else
    match goSplitChar ' ' r.line with
    | [] => ParseOutcome.panicked
    | [_] => ParseOutcome.panicked
    | m :: p :: _ =>
      match parseHeaders r.rest [] with
      | HeaderOutcome.panicked => ParseOutcome.panicked
      | HeaderOutcome.eofReturn hdrs =>
          ParseOutcome.ok ⟨m.asString, p.asString, hdrs, ""⟩ []
      | HeaderOutcome.done hdrs rest =>
        match hdrs.lookup "Content-Length" with
        | none => ParseOutcome.ok ⟨m.asString, p.asString, hdrs, ""⟩ rest
        | some clStr =>
          let cl := goAtoi clStr.data
          if cl < 0 then ParseOutcome.panicked
          else if rest.length < cl.toNat then
            if rest.length = 0 then ParseOutcome.error "EOF"
            else ParseOutcome.error "unexpected EOF"
          else
            ParseOutcome.ok
              ⟨m.asString, p.asString, hdrs, (rest.take cl.toNat).asString⟩
              (rest.drop cl.toNat)

/-- Result of the abstract byte-store's `read`. -/
inductive ReadResult where
  | notFound
  | ioError
  | ok (content : String)

/-- Result of the abstract byte-store's `write`. -/
inductive WriteResult where
  | ok
  | ioError

/-- The filesystem as the spec's abstract byte-store. -/
structure ByteStore where
  read  : String → ReadResult
  write : String → String → WriteResult

/-- `filepath.Join(dir, fileName)`; path cleaning is irrelevant here since
the store is keyed abstractly. -/
def filepathJoin (dir name : String) : String := dir ++ "/" ++ name

/-- `handleFileGet` (src/app/server.go): 404 when the file does not exist,
500 on open/read errors, otherwise the file bytes with
`Content-Type: application/octet-stream`. -/
def handleFileGet (path : String) (store : ByteStore) (resp : Response) :
    Response :=
  match store.read path with
  | ReadResult.notFound => { resp with StatusCode := 404 }
  | ReadResult.ioError => { resp with StatusCode := 500 }
  | ReadResult.ok content =>
      { resp with Body := content,
                  Headers := [("Content-Type", "application/octet-stream")] }

/-- `handleFilePost` (src/app/server.go): 500 on create/write/sync errors,
otherwise 201. -/
def handleFilePost (path : String) (req : Request) (store : ByteStore)
    (resp : Response) : Response :=
  match store.write path req.Body with
  | WriteResult.ioError => { resp with StatusCode := 500 }
  | WriteResult.ok => { resp with StatusCode := 201 }

/-- The routing decision tree of `handleConnection` (src/app/server.go,
lines 104–125), starting from `Response{StatusCode: 200}`.  `none` models
the `pathParts[1]` panic when `SplitN` found no separator. -/
def dispatch (req : Request) (dir : String) (store : ByteStore) :
    Option Response :=
  let resp : Response := ⟨200, [], ""⟩
  if "/echo".data.isPrefixOf req.Path.data then
    match splitOnce "/echo/".data req.Path.data with
    | some (_, after) => some { resp with Body := after.asString }
    | none => none
  else if req.Path = "/user-agent" then
    some { resp with Body := (req.Headers.lookup "User-Agent").getD "" }
  else if "/files".data.isPrefixOf req.Path.data ∧ dir ≠ "" then
    match splitOnce "/files/".data req.Path.data with
    | some (_, after) =>
      let path := filepathJoin dir after.asString
      if req.Method = "GET" then some (handleFileGet path store resp)
      else if req.Method = "POST" then some (handleFilePost path req store resp)
      else some { resp with Headers := [("Allow", "GET, POST")], StatusCode := 405 }
    | none => none
  else if req.Path ≠ "/" then
    some { resp with StatusCode := 404 }
  else
    some resp

/-- Outcome of one connection's handling. -/
inductive ConnOutcome where
  | wrote (bytes : String)
  | exitProcess
  | panicked
deriving Repr, DecidableEq

/-- `handleConnection` (src/app/server.go): parse, route, serialize,
write.  A parse error reaches `os.Exit(1)` (`exitProcess`), a panic in the
goroutine crashes the process (`panicked`), otherwise the serialized
response is written. -/
def handleConnection (stream : List Char) (dir : String) (store : ByteStore) :
    ConnOutcome :=
  match parseRequest stream with
  | ParseOutcome.error _ => ConnOutcome.exitProcess
  | ParseOutcome.panicked => ConnOutcome.panicked
  | ParseOutcome.ok req _ =>
    match dispatch req dir store with
    | none => ConnOutcome.panicked
    | some resp => ConnOutcome.wrote (Response.string resp)

/-- A store with no files, used to instantiate examples. -/
def emptyStore : ByteStore :=
  ⟨fun _ => ReadResult.notFound, fun _ _ => WriteResult.ok⟩

/-- A connection stream carrying a `GET /` request line and a
`Content-Length` header with value `v`, followed by the blank line and
`tail` as the available body bytes. -/
def mkCLStream (v tail : List Char) : List Char :=
  "GET / HTTP/1.1\r\nContent-Length: ".data ++
    (v ++ ('\r' :: '\n' :: '\r' :: '\n' :: tail))

/-! ## Helper lemmas about the embedded primitives -/

lemma readLine_no_newline (s : List Char) (h : '\n' ∉ s) :
    readLine s = ⟨s, [], true⟩ := by
  induction s with
  | nil => rfl
  | cons c rest ih =>
    have hc : c ≠ '\n' := fun hc => h (hc ▸ List.mem_cons_self c rest)
    have hr : '\n' ∉ rest := fun hm => h (List.mem_cons_of_mem c hm)
    simp [readLine, hc, ih hr]

lemma readLine_append (pre rest : List Char) (h : '\n' ∉ pre) :
    readLine (pre ++ '\n' :: rest) = ⟨pre ++ ['\n'], rest, false⟩ := by
  induction pre with
  | nil => simp [readLine]
  | cons c p ih =>
    have hc : c ≠ '\n' := fun hc => h (hc ▸ List.mem_cons_self c p)
    have hp : '\n' ∉ p := fun hm => h (List.mem_cons_of_mem c hm)
    simp [readLine, hc, ih hp]

lemma readLine_rest_length_lt (s : List Char) (h : s ≠ []) :
    (readLine s).rest.length < s.length := by
  induction s with
  | nil => exact absurd rfl h
  | cons c rest ih =>
    by_cases hc : c = '\n'
    · simp [readLine, hc]
    · simp only [readLine, if_neg hc, List.length_cons]
      rcases rest with _ | ⟨d, t⟩
      · simp [readLine]
      · exact Nat.lt_succ_of_lt (ih (by simp))

lemma readLine_eof_ne_nil (s : List Char) (h : (readLine s).eof = false) :
    s ≠ [] := by
  intro hnil
  rw [hnil] at h
  simp [readLine] at h

lemma isPrefixOf_append_self (l t : List Char) : l.isPrefixOf (l ++ t) = true :=
  List.isPrefixOf_iff_prefix.mpr (List.prefix_append l t)

lemma splitOnce_append_self (sep rest : List Char) :
    splitOnce sep (sep ++ rest) = some ([], rest) := by
  cases hs : sep ++ rest with
  | nil =>
    rcases List.append_eq_nil.mp hs with ⟨h1, h2⟩
    subst h1
    subst h2
    rfl
  | cons c t =>
    have hpre : sep.isPrefixOf (c :: t) = true := hs ▸ isPrefixOf_append_self sep rest
    rw [splitOnce.eq_2]
    simp only [hpre, if_true]
    rw [← hs, List.drop_left]

lemma splitOnce_first (c : Char) (a b : List Char) (h : c ∉ a) :
    splitOnce [c] (a ++ c :: b) = some (a, b) := by
  induction a with
  | nil => simpa using splitOnce_append_self [c] b
  | cons x xs ih =>
    have hx : x ≠ c := fun hc => h (hc ▸ List.mem_cons_self x xs)
    have hxs : c ∉ xs := fun hm => h (List.mem_cons_of_mem x hm)
    have hpre : ([c].isPrefixOf (x :: (xs ++ c :: b))) = false := by
      simp [List.isPrefixOf]
      exact fun hcx => absurd hcx.symm hx
    simp [splitOnce, hpre, ih hxs]

lemma lookup_mapSet_self (k v : String) (m : List (String × String)) :
    (mapSet k v m).lookup k = some v := by
  induction m with
  | nil => simp [mapSet]
  | cons kv rest ih =>
    rcases kv with ⟨k1, v1⟩
    by_cases hk : k1 = k
    · simp [mapSet, hk]
    · have hne : (k == k1) = false := beq_eq_false_iff_ne.mpr (Ne.symm hk)
      simp [mapSet, hk, List.lookup, hne, ih]

lemma lookup_mapSet_ne (k k' v : String) (m : List (String × String))
    (h : k' ≠ k) : (mapSet k v m).lookup k' = m.lookup k' := by
  have hbe : (k' == k) = false := beq_eq_false_iff_ne.mpr h
  induction m with
  | nil => simp [mapSet, List.lookup, hbe]
  | cons kv rest ih =>
    rcases kv with ⟨k1, v1⟩
    by_cases hk : k1 = k
    · subst hk
      simp [mapSet, List.lookup, hbe]
    · cases hbk : (k' == k1) <;> simp [mapSet, hk, List.lookup, hbk, ih]

lemma parseHeadersFuel_eq :
    ∀ (n f1 f2 : Nat) (s : List Char) (hdrs : List (String × String)),
      s.length ≤ n → s.length < f1 → s.length < f2 →
      parseHeadersFuel f1 s hdrs = parseHeadersFuel f2 s hdrs := by
  intro n
  induction n with
  | zero =>
    intro f1 f2 s hdrs hn h1 h2
    have hs : s = [] := List.length_eq_zero.mp (Nat.le_zero.mp hn)
    subst hs
    match f1, f2 with
    | g1 + 1, g2 + 1 => rfl
  | succ n ih =>
    intro f1 f2 s hdrs hn h1 h2
    match f1, f2 with
    | g1 + 1, g2 + 1 =>
      simp only [parseHeadersFuel]
      by_cases hline : (readLine s).line = ['\r', '\n']
      · simp [hline]
      · simp only [if_neg hline]
        by_cases heof : (readLine s).eof = true
        · simp [heof]
        · have heof' : (readLine s).eof = false := Bool.eq_false_iff.mpr heof
          simp only [heof', if_neg, Bool.false_eq_true, if_false]
          cases hsplit : splitOnce [':'] (readLine s).line with
          | none => rfl
          | some nv =>
            have hlt : (readLine s).rest.length < s.length :=
              readLine_rest_length_lt s (readLine_eof_ne_nil s heof')
            have hrn : (readLine s).rest.length ≤ n :=
              Nat.lt_succ_iff.mp (Nat.lt_of_lt_of_le hlt hn)
            exact ih g1 g2 (readLine s).rest _
              hrn (Nat.lt_of_lt_of_le hlt (Nat.lt_succ_iff.mp h1))
              (Nat.lt_of_lt_of_le hlt (Nat.lt_succ_iff.mp h2))

/-- One unfolding step of the header loop. -/
lemma parseHeaders_step (s : List Char) (hdrs : List (String × String)) :
    parseHeaders s hdrs =
      if (readLine s).line = ['\r', '\n'] then
        HeaderOutcome.done hdrs (readLine s).rest
      else if (readLine s).eof then
        HeaderOutcome.eofReturn hdrs
      else
        match splitOnce [':'] (readLine s).line with
        | none => HeaderOutcome.panicked
        | some (name, value) =>
            parseHeaders (readLine s).rest
              (mapSet name.asString (trimSpace value).asString hdrs) := by
  rw [parseHeaders]
  simp only [parseHeadersFuel]
  by_cases hline : (readLine s).line = ['\r', '\n']
  · simp [hline]
  · simp only [if_neg hline]
    by_cases heof : (readLine s).eof = true
    · simp [heof]
    · have heof' : (readLine s).eof = false := Bool.eq_false_iff.mpr heof
      simp only [heof', Bool.false_eq_true, if_false]
      cases hsplit : splitOnce [':'] (readLine s).line with
      | none => rfl
      | some nv =>
        obtain ⟨name, value⟩ := nv
        have hlt : (readLine s).rest.length < s.length :=
          readLine_rest_length_lt s (readLine_eof_ne_nil s heof')
        show parseHeadersFuel s.length (readLine s).rest _ =
          parseHeaders (readLine s).rest _
        rw [parseHeaders]
        exact parseHeadersFuel_eq s.length s.length ((readLine s).rest.length + 1)
          (readLine s).rest _ (Nat.le_of_lt hlt) hlt (Nat.lt_succ_self _)

lemma asString_data (s : String) : s.data.asString = s := rfl

/-- Processing of the fixed request line `GET / HTTP/1.1\r\n`: the parser
reads it, splits it into three tokens, and continues with the header loop
on the remaining stream. -/
lemma parseRequest_get_slash (s : List Char) :
    parseRequest ("GET / HTTP/1.1\r".data ++ '\n' :: s) =
      (match parseHeaders s [] with
       | HeaderOutcome.panicked => ParseOutcome.panicked
       | HeaderOutcome.eofReturn hdrs => ParseOutcome.ok ⟨"GET", "/", hdrs, ""⟩ []
       | HeaderOutcome.done hdrs rest =>
         match hdrs.lookup "Content-Length" with
         | none => ParseOutcome.ok ⟨"GET", "/", hdrs, ""⟩ rest
         | some clStr =>
           if goAtoi clStr.data < 0 then ParseOutcome.panicked
           else if rest.length < (goAtoi clStr.data).toNat then
             (if rest.length = 0 then ParseOutcome.error "EOF"
              else ParseOutcome.error "unexpected EOF")
           else ParseOutcome.ok
             ⟨"GET", "/", hdrs, (rest.take (goAtoi clStr.data).toNat).asString⟩
             (rest.drop (goAtoi clStr.data).toNat)) := rfl

/-- A `\r\n` line ends the header loop. -/
lemma parseHeaders_crlf (rest : List Char) (hdrs : List (String × String)) :
    parseHeaders ('\r' :: '\n' :: rest) hdrs = HeaderOutcome.done hdrs rest := rfl

/-- A bare `\n` line does not end the header loop: it is treated as a
header line, has no colon, and the access to `headerParts[1]` panics. -/
lemma parseHeaders_bare_lf (rest : List Char) (hdrs : List (String × String)) :
    parseHeaders ('\n' :: rest) hdrs = HeaderOutcome.panicked := rfl

/-! ## Claim theorems -/

/-- C1, counterexample.  The claim says a parse failure terminates only
the affected connection's handling task and the server process keeps
running; in the code the parse-failure branch of `handleConnection` calls
`os.Exit(1)`, so on the stream `"GET"` (closed before any newline) the
whole process exits. -/
theorem connection_parse_failure_exits_cex :
    handleConnection "GET".data "" emptyStore = ConnOutcome.exitProcess := rfl

/-- C1, amended.  For every connection whose request fails to parse (the
parser returns an error), no response bytes are written, but the handler
reaches `os.Exit(1)` and the whole server process exits — not just the
connection's handling task. -/
theorem connection_parse_failure_behavior (stream : List Char) (dir : String)
    (store : ByteStore) (msg : String)
    (h : parseRequest stream = ParseOutcome.error msg) :
    handleConnection stream dir store = ConnOutcome.exitProcess := by
  simp [handleConnection, h]

/-- Witness for `connection_parse_failure_behavior` at the stream
`"PO"`. -/
theorem connection_parse_failure_behavior_witness :
    handleConnection "PO".data "" emptyStore = ConnOutcome.exitProcess :=
  connection_parse_failure_behavior "PO".data "" emptyStore
    "malformed HTTP request" (by decide)

/-- C2, counterexample.  The claim says serialization always emits a
`Content-Length` equal to the body's byte length, even when the header map
already holds a different value; in the code a preset `Content-Length` is
kept verbatim: with body `"hi"` (length 2) and preset value `"999"`, the
wire bytes declare `Content-Length: 999`. -/
theorem serialize_preset_content_length_cex :
    Response.string ⟨200, [("Content-Length", "999")], "hi"⟩ =
      "HTTP/1.1 200 OK\r\nContent-Length: 999\r\nContent-Type: text/plain\r\n\r\nhi"
    ∧ ("hi" : String).length = 2 ∧ "999" ≠ "2" := by decide

/-- C2, amended.  Serialization emits a `Content-Length` equal to the
body's byte length when the header map holds none; a preexisting entry is
emitted unchanged even when it differs from the body length; and the bytes
after the blank-line separator are exactly the body. -/
theorem serialize_content_length_spec (r : Response) :
    (finalizeHeaders r.Headers r.Body.length).lookup "Content-Length" =
      some ((r.Headers.lookup "Content-Length").getD (toString r.Body.length))
    ∧ ∃ head, Response.string r = head ++ "\r\n" ++ r.Body := by
  constructor
  · simp only [finalizeHeaders]
    have hne : ("Content-Length" : String) ≠ "Content-Type" := by decide
    by_cases hct : (r.Headers.lookup "Content-Type").isSome <;>
      cases hcl : r.Headers.lookup "Content-Length" <;>
        simp [hct, hcl, lookup_mapSet_ne _ _ _ _ hne, lookup_mapSet_self]
  · exact ⟨_, rfl⟩

/-- C3.  The claim says a request line with fewer than two space-separated
tokens fails with `MalformedRequest`; in the code `parts[1]` is indexed
without a length check, so the line `"GET\r\n"` panics (index out of
range) instead.  The missing-newline half of the claim does hold: the
stream `"GET"` with no newline returns the `malformed HTTP request`
error. -/
theorem request_line_single_token_panics :
    parseRequest "GET\r\n".data = ParseOutcome.panicked
    ∧ parseRequest "GET".data = ParseOutcome.error "malformed HTTP request" := by
  decide

/-- C4, counterexample.  The claim says the path `/echoes` (which matches
no route) yields 404 with an empty body; in the code the route check is
`HasPrefix(path, "/echo")`, so `/echoes` enters the echo branch, `SplitN`
finds no `/echo/` separator, and `pathParts[1]` panics. -/
theorem dispatch_echoes_panics_cex :
    dispatch ⟨"GET", "/echoes", [], ""⟩ "" emptyStore = none := rfl

/-- C4, amended.  A request whose path does not start with `/echo`, is not
exactly `/user-agent`, does not both start with `/files` and have a
storage directory configured, and is not exactly `/`, gets status 404 with
an empty body.  A path that starts with `/echo` but lacks the substring
`/echo/` (such as `/echo` or `/echoes`) instead panics, and so does a path
starting with `/files` but lacking `/files/` when a directory is
configured. -/
theorem dispatch_unmatched_behavior (req : Request) (dir : String)
    (store : ByteStore) :
    ("/echo".data.isPrefixOf req.Path.data = false → req.Path ≠ "/user-agent" →
      ¬("/files".data.isPrefixOf req.Path.data = true ∧ dir ≠ "") →
      req.Path ≠ "/" → dispatch req dir store = some ⟨404, [], ""⟩)
    ∧ ("/echo".data.isPrefixOf req.Path.data = true →
        splitOnce "/echo/".data req.Path.data = none →
        dispatch req dir store = none)
    ∧ ("/echo".data.isPrefixOf req.Path.data = false →
        req.Path ≠ "/user-agent" →
        "/files".data.isPrefixOf req.Path.data = true → dir ≠ "" →
        splitOnce "/files/".data req.Path.data = none →
        dispatch req dir store = none) := by
  refine ⟨fun h1 h2 h3 h4 => ?_, fun h1 h5 => ?_, fun h1 h2 h6 h7 h8 => ?_⟩
  · simp only [dispatch]
    rw [if_neg (by simp [h1]), if_neg h2, if_neg h3, if_pos h4]
  · simp only [dispatch]
    rw [if_pos h1, h5]
  · simp only [dispatch]
    rw [if_neg (by simp [h1]), if_neg h2, if_pos ⟨h6, h7⟩, h8]

/-- Witness for `dispatch_unmatched_behavior` at the paths `/nope`
(404), `/echo` (panic), and `/filesX` with a configured directory
(panic). -/
theorem dispatch_unmatched_behavior_witness :
    dispatch ⟨"GET", "/nope", [], ""⟩ "" emptyStore = some ⟨404, [], ""⟩
    ∧ dispatch ⟨"GET", "/echo", [], ""⟩ "" emptyStore = none
    ∧ dispatch ⟨"GET", "/filesX", [], ""⟩ "/tmp" emptyStore = none :=
  ⟨(dispatch_unmatched_behavior ⟨"GET", "/nope", [], ""⟩ "" emptyStore).1
      (by decide) (by decide) (by decide) (by decide),
   (dispatch_unmatched_behavior ⟨"GET", "/echo", [], ""⟩ "" emptyStore).2.1
      (by decide) (by decide),
   (dispatch_unmatched_behavior ⟨"GET", "/filesX", [], ""⟩ "/tmp" emptyStore).2.2
      (by decide) (by decide) (by decide) (by decide) (by decide)⟩

/-- C5, counterexample.  The claim says any `Content-Length` value that is
not a valid non-negative integer is treated as length 0; in the code
`strconv.Atoi("-1")` succeeds with -1 (the ignored error is nil), and
`make([]byte, -1)` panics, so the request is neither parsed with an empty
body nor rejected with an error. -/
theorem content_length_negative_panics_cex :
    parseRequest "GET / HTTP/1.1\r\nContent-Length: -1\r\n\r\n".data =
      ParseOutcome.panicked := by decide

/-- C5, amended.  For a request with a `Content-Length` header of value
`v`: when `v` parses to a non-negative integer `n` (unparsable values
yield 0), exactly `n` body bytes are read and the rest of the stream is
left unconsumed; when fewer than `n` bytes remain the parser returns a
read error (truncated body); when `v` parses to a negative integer the
parser panics (`make` with a negative length) instead of treating it as 0;
and with no `Content-Length` header the body is empty and nothing past the
header section is consumed. -/
theorem parse_content_length_behavior (v tail : List Char)
    (h1 : '\n' ∉ v) (h2 : trimSpace (' ' :: (v ++ ['\r', '\n'])) = v) :
    (∀ n : Nat, goAtoi v = (n : Int) → n ≤ tail.length →
      parseRequest (mkCLStream v tail) =
        ParseOutcome.ok
          ⟨"GET", "/", [("Content-Length", v.asString)], (tail.take n).asString⟩
          (tail.drop n))
    ∧ (∀ n : Nat, goAtoi v = (n : Int) → tail.length < n →
        parseRequest (mkCLStream v tail) =
          ParseOutcome.error (if tail.length = 0 then "EOF" else "unexpected EOF"))
    ∧ (goAtoi v < 0 → parseRequest (mkCLStream v tail) = ParseOutcome.panicked)
    ∧ (∀ t2 : List Char,
        parseRequest ("GET / HTTP/1.1\r\n\r\n".data ++ t2) =
          ParseOutcome.ok ⟨"GET", "/", [], ""⟩ t2) := by
  have hnlpre : '\n' ∉ ("Content-Length: ".data ++ (v ++ ['\r'])) := by
    intro hmem
    rcases List.mem_append.mp hmem with hA | hB
    · exact absurd hA (by decide)
    · rcases List.mem_append.mp hB with hC | hD
      · exact h1 hC
      · exact absurd hD (by decide)
  have hshape : "Content-Length: ".data ++ (v ++ ('\r' :: '\n' :: '\r' :: '\n' :: tail)) =
      ("Content-Length: ".data ++ (v ++ ['\r'])) ++ '\n' :: ('\r' :: '\n' :: tail) := by
    simp [List.append_assoc]
  have hlne : (("Content-Length: ".data ++ (v ++ ['\r'])) ++ ['\n']) ≠ ['\r', '\n'] := by
    intro he
    have h3 : 'C' :: (("ontent-Length: ".data ++ (v ++ ['\r'])) ++ ['\n']) =
        ['\r', '\n'] := he
    injection h3 with hchar _
    exact absurd hchar (by decide)
  have hshape2 : (("Content-Length: ".data ++ (v ++ ['\r'])) ++ ['\n']) =
      "Content-Length".data ++ ':' :: (' ' :: (v ++ ['\r', '\n'])) := by
    simp [List.append_assoc]
  have hsplit2 : splitOnce [':'] (("Content-Length: ".data ++ (v ++ ['\r'])) ++ ['\n']) =
      some ("Content-Length".data, ' ' :: (v ++ ['\r', '\n'])) := by
    rw [hshape2]
    exact splitOnce_first ':' _ _ (by decide)
  have hph : parseHeaders
      ("Content-Length: ".data ++ (v ++ ('\r' :: '\n' :: '\r' :: '\n' :: tail))) [] =
      HeaderOutcome.done [("Content-Length", v.asString)] tail := by
    rw [parseHeaders_step, hshape,
      readLine_append ("Content-Length: ".data ++ (v ++ ['\r']))
        ('\r' :: '\n' :: tail) hnlpre]
    dsimp only
    rw [if_neg hlne]
    rw [if_neg (by simp : ¬ (false = true))]
    rw [hsplit2]
    dsimp only
    rw [h2]
    exact parseHeaders_crlf tail _
  have hmain : parseRequest (mkCLStream v tail) =
      (if goAtoi v < 0 then ParseOutcome.panicked
       else if tail.length < (goAtoi v).toNat then
         (if tail.length = 0 then ParseOutcome.error "EOF"
          else ParseOutcome.error "unexpected EOF")
       else ParseOutcome.ok
         ⟨"GET", "/", [("Content-Length", v.asString)],
          (tail.take (goAtoi v).toNat).asString⟩
         (tail.drop (goAtoi v).toNat)) := by
    show parseRequest ("GET / HTTP/1.1\r".data ++
      '\n' :: ("Content-Length: ".data ++ (v ++ ('\r' :: '\n' :: '\r' :: '\n' :: tail)))) = _
    rw [parseRequest_get_slash, hph]
    rfl
  refine ⟨fun n hn hle => ?_, fun n hn hlt => ?_, fun hneg => ?_, fun t2 => ?_⟩
  · rw [hmain, hn, if_neg (by omega : ¬ ((n : Int) < 0)), Int.toNat_natCast,
      if_neg (Nat.not_lt.mpr hle)]
  · rw [hmain, hn, if_neg (by omega : ¬ ((n : Int) < 0)), Int.toNat_natCast, if_pos hlt]
    split <;> rfl
  · rw [hmain, if_pos hneg]
  · show parseRequest ("GET / HTTP/1.1\r".data ++ '\n' :: ('\r' :: '\n' :: t2)) = _
    rw [parseRequest_get_slash, parseHeaders_crlf]
    rfl

/-- Witness for `parse_content_length_behavior`: with `Content-Length: 5`
and 6 available bytes exactly 5 are read as the body; with
`Content-Length: -1` the parser panics. -/
theorem parse_content_length_behavior_witness :
    parseRequest (mkCLStream "5".data "hello!".data) =
      ParseOutcome.ok ⟨"GET", "/", [("Content-Length", "5")], "hello"⟩ ['!']
    ∧ parseRequest (mkCLStream "-1".data []) = ParseOutcome.panicked :=
  ⟨(parse_content_length_behavior "5".data "hello!".data
      (by decide) (by decide)).1 5 (by decide) (by decide),
   (parse_content_length_behavior "-1".data []
      (by decide) (by decide)).2.2.1 (by decide)⟩

/-- C6, counterexample.  The claim says the header loop also terminates
successfully on a bare `\n` line; in the code only `"\r\n"` is compared,
so a bare `\n` line is treated as a header line with no colon and the
parser panics on `headerParts[1]`. -/
theorem bare_lf_header_line_panics_cex :
    parseRequest "GET / HTTP/1.1\r\n\nHost: x\r\n\r\n".data =
      ParseOutcome.panicked := by decide

/-- C6, amended.  The header loop terminates successfully on a `\\r\\n`
line; a bare `\\n` line does not terminate it but panics at the colon
split; a complete header line (ending in `\\n`, containing a colon) is
stored and the loop continues; and end-of-stream while reading headers
(no terminating blank line) - after any number of complete header lines -
returns the request successfully with the headers read so far and an
empty body. -/
theorem header_loop_termination_behavior :
    (∀ rest hdrs, parseHeaders ('\r' :: '\n' :: rest) hdrs = HeaderOutcome.done hdrs rest)
    ∧ (∀ rest hdrs, parseHeaders ('\n' :: rest) hdrs = HeaderOutcome.panicked)
    ∧ (∀ (pre rest : List Char) (hdrs : List (String × String)) (a b : List Char),
        '\n' ∉ pre → pre ≠ ['\r'] →
        splitOnce [':'] (pre ++ ['\n']) = some (a, b) →
        parseHeaders (pre ++ '\n' :: rest) hdrs =
          parseHeaders rest (mapSet a.asString (trimSpace b).asString hdrs))
    ∧ (∀ (s : List Char) (hdrs : List (String × String)), '\n' ∉ s →
        parseHeaders s hdrs = HeaderOutcome.eofReturn hdrs)
    ∧ (∀ (s : List Char) (h2 : List (String × String)),
        parseHeaders s [] = HeaderOutcome.eofReturn h2 →
        parseRequest ("GET / HTTP/1.1\r\n".data ++ s) =
          ParseOutcome.ok ⟨"GET", "/", h2, ""⟩ []) := by
  refine ⟨parseHeaders_crlf, parseHeaders_bare_lf,
    fun pre rest hdrs a b hpre hne hsplit => ?_,
    fun s hdrs hs => ?_, fun s h2 hph => ?_⟩
  · rw [parseHeaders_step, readLine_append pre rest hpre]
    dsimp only
    rw [if_neg (show ¬ (pre ++ ['\n'] = ['\r', '\n']) from fun he => hne
      (List.append_cancel_right (show pre ++ ['\n'] = ['\r'] ++ ['\n'] from he)))]
    rw [if_neg (by simp : ¬ (false = true))]
    rw [hsplit]
  · have hsne : s ≠ ['\r', '\n'] := by
      intro he
      exact hs (he ▸ (by decide : '\n' ∈ (['\r', '\n'] : List Char)))
    rw [parseHeaders_step, readLine_no_newline s hs]
    dsimp only
    rw [if_neg hsne]
    simp
  · show parseRequest ("GET / HTTP/1.1\r".data ++ '\n' :: s) = _
    rw [parseRequest_get_slash, hph]

/-- Witness for `header_loop_termination_behavior`: a `\\r\\n` line ends
the loop, a bare `\\n` panics, the complete line `Host: x\\r\\n` is
stored, end-of-stream returns the stored headers, and the whole stream
`GET / HTTP/1.1\\r\\nHost: x\\r\\n` closed with no blank line parses to a
request with header `Host: x` and an empty body. -/
theorem header_loop_termination_behavior_witness :
    parseHeaders ('\r' :: '\n' :: "x".data) [] = HeaderOutcome.done [] "x".data
    ∧ parseHeaders ('\n' :: "x".data) [] = HeaderOutcome.panicked
    ∧ parseHeaders ("Host: x\r".data ++ '\n' :: []) [] =
        parseHeaders [] [("Host", "x")]
    ∧ parseHeaders [] [("Host", "x")] = HeaderOutcome.eofReturn [("Host", "x")]
    ∧ parseRequest ("GET / HTTP/1.1\r\n".data ++ "Host: x\r\n".data) =
        ParseOutcome.ok ⟨"GET", "/", [("Host", "x")], ""⟩ [] :=
  ⟨header_loop_termination_behavior.1 "x".data [],
   header_loop_termination_behavior.2.1 "x".data [],
   header_loop_termination_behavior.2.2.1 "Host: x\r".data [] []
     "Host".data " x\r\n".data (by decide) (by decide) (by decide),
   header_loop_termination_behavior.2.2.2.1 [] [("Host", "x")] (by decide),
   header_loop_termination_behavior.2.2.2.2 "Host: x\r\n".data [("Host", "x")]
     (by decide)⟩

/-- C7.  For every string `s` with no embedded `/echo/` substring (the
code's `SplitN` finds no occurrence inside `s`), a request for the path
`/echo/` followed by `s` yields status 200 with body exactly `s`,
verbatim, for any method, headers, body, directory, and store. -/
theorem echo_dispatch_verbatim (s method body dir : String)
    (hdrs : List (String × String)) (store : ByteStore)
    (_hno : splitOnce "/echo/".data s.data = none) :
    dispatch ⟨method, "/echo/" ++ s, hdrs, body⟩ dir store = some ⟨200, [], s⟩ := by
  have hpre : "/echo".data.isPrefixOf ("/echo/" ++ s).data = true := by
    rw [String.data_append]
    exact isPrefixOf_append_self "/echo".data ('/' :: s.data)
  have hsplit : splitOnce ['/', 'e', 'c', 'h', 'o', '/']
      ('/' :: 'e' :: 'c' :: 'h' :: 'o' :: '/' :: s.data) = some ([], s.data) :=
    splitOnce_append_self "/echo/".data s.data
  simp [dispatch, hpre, hsplit, asString_data]

/-- Witness for `echo_dispatch_verbatim` at `s = "hello/world"`, which
contains a slash and is echoed verbatim. -/
theorem echo_dispatch_verbatim_witness :
    dispatch ⟨"GET", "/echo/" ++ "hello/world", [], ""⟩ "" emptyStore =
      some ⟨200, [], "hello/world"⟩ :=
  echo_dispatch_verbatim "hello/world" "GET" "" "" [] emptyStore (by decide)

/-- C8.  A request for a path of the form `/files/<rest>` with a
storage directory configured and a method that is neither `GET` nor
`POST` gets status 405 with the header `Allow: GET, POST`. -/
theorem files_method_not_allowed (rest method body dir : String)
    (hdrs : List (String × String)) (store : ByteStore)
    (hdir : dir ≠ "") (hget : method ≠ "GET") (hpost : method ≠ "POST") :
    dispatch ⟨method, "/files/" ++ rest, hdrs, body⟩ dir store =
      some ⟨405, [("Allow", "GET, POST")], ""⟩ := by
  have hecho : "/echo".data.isPrefixOf ("/files/" ++ rest).data = false := by
    rw [String.data_append]; rfl
  have hua : ("/files/" ++ rest) ≠ "/user-agent" := by
    intro h
    have h2 : ("/files/" ++ rest).data = "/user-agent".data := congrArg String.data h
    rw [String.data_append] at h2
    have h3 : '/' :: 'f' :: ("iles/".data ++ rest.data) = "/user-agent".data := h2
    injection h3 with _ h4
    injection h4 with h5 _
    exact absurd h5 (by decide)
  have hfiles : "/files".data.isPrefixOf ("/files/" ++ rest).data = true := by
    rw [String.data_append]
    exact isPrefixOf_append_self "/files".data ('/' :: rest.data)
  have hsplit : splitOnce ['/', 'f', 'i', 'l', 'e', 's', '/']
      ('/' :: 'f' :: 'i' :: 'l' :: 'e' :: 's' :: '/' :: rest.data) =
      some ([], rest.data) :=
    splitOnce_append_self "/files/".data rest.data
  simp [dispatch, hecho, hua, hfiles, hdir, hget, hpost, hsplit]

/-- Witness for `files_method_not_allowed`: DELETE of `/files/x.txt`
with directory `/tmp` yields 405 with `Allow: GET, POST`. -/
theorem files_method_not_allowed_witness :
    dispatch ⟨"DELETE", "/files/" ++ "x.txt", [], ""⟩ "/tmp" emptyStore =
      some ⟨405, [("Allow", "GET, POST")], ""⟩ :=
  files_method_not_allowed "x.txt" "DELETE" "" "/tmp" [] emptyStore
    (by decide) (by decide) (by decide)

/-- C9.  A request for any path of the form `/files/<rest>` when no
storage directory is configured (empty directory string) gets status 404
with an empty body — the same response an unknown path gets — regardless
of the method, headers, body, and store. -/
theorem files_unconfigured_dir_404 (rest method body : String)
    (hdrs : List (String × String)) (store : ByteStore) :
    dispatch ⟨method, "/files/" ++ rest, hdrs, body⟩ "" store =
      some ⟨404, [], ""⟩ := by
  have hecho : "/echo".data.isPrefixOf ("/files/" ++ rest).data = false := by
    rw [String.data_append]; rfl
  have hua : ("/files/" ++ rest) ≠ "/user-agent" := by
    intro h
    have h2 : ("/files/" ++ rest).data = "/user-agent".data := congrArg String.data h
    rw [String.data_append] at h2
    have h3 : '/' :: 'f' :: ("iles/".data ++ rest.data) = "/user-agent".data := h2
    injection h3 with _ h4
    injection h4 with h5 _
    exact absurd h5 (by decide)
  have hroot : ("/files/" ++ rest) ≠ "/" := by
    intro h
    have h2 : ("/files/" ++ rest).data = "/".data := congrArg String.data h
    rw [String.data_append] at h2
    have h3 : '/' :: 'f' :: ("iles/".data ++ rest.data) = "/".data := h2
    injection h3 with _ h4
    exact absurd h4 (by simp)
  simp [dispatch, hecho, hua, hroot]

/-- C10.  On the stream `"GET / HTTP/1.1\r\nX-Broken\r\n\r\n"`, whose
header line `X-Broken` has no colon, the split on `:` yields a
single-element result (`splitOnce` finds no separator) and the access to
element 1 is out of bounds: `parseRequest` panics, returning neither a
request nor a parse error. -/
theorem colonless_header_line_panics :
    parseRequest "GET / HTTP/1.1\r\nX-Broken\r\n\r\n".data = ParseOutcome.panicked
    ∧ splitOnce ":".data "X-Broken\r\n".data = none := by decide

end HttpServer
